import Mathlib

/-!
Verification of the dot-lock protocol engine (`dotlock.py`).

The source is shallowly embedded: the filesystem is an explicit state (directory
entries mapping paths to inode numbers, plus an inode table), every
adapter primitive (`writefile`, `readfile`, `utime`, `link`, `unlink`, `stat`)
is a pure state-passing function, and the raw OS calls that may fail
(`os.open`/`os.link`/... raising `OSError`/`IOError`) are modelled as
`Except Unit`-valued functions with an explicit fault-injection flag:
`f = true` means the underlying call raises.  Python wall-clock times
(`time.time()`, `st_mtime`) are modelled as integers; each point of the code
that reads the clock takes the observed value as an explicit parameter.
Every filesystem primitive also appends a record of itself to an operation
log so that "performs no filesystem interaction" claims can be stated.
-/

namespace DotLock

/-- One filesystem object: modification time and file content
(`os.stat`'s `ST_MTIME` and the bytes `read()` returns). -/
structure Inode where
  mtime : Int
  data : String
deriving DecidableEq, Repr

/-- Association-list lookup, first binding wins (directory entries and the
inode table are finite maps). -/
def alookup {κ α : Type} [DecidableEq κ] : List (κ × α) → κ → Option α
  | [], _ => none
  | (k, v) :: t, k0 => if k = k0 then some v else alookup t k0

/-- Insert or overwrite a binding. -/
def aset {κ α : Type} [DecidableEq κ] : List (κ × α) → κ → α → List (κ × α)
  | [], k, v => [(k, v)]
  | (k0, v0) :: t, k, v => if k0 = k then (k, v) :: t else (k0, v0) :: aset t k v

/-- Remove every binding for a key (`os.unlink` of a directory entry). -/
def aremove {κ α : Type} [DecidableEq κ] : List (κ × α) → κ → List (κ × α)
  | [], _ => []
  | (k0, v0) :: t, k => if k0 = k then aremove t k else (k0, v0) :: aremove t k

/-- The shared filesystem: directory entries (path to inode number), the inode
table, and the next fresh inode number (inode numbers are never reused). -/
structure FS where
  entries : List (String × Nat)
  inodes : List (Nat × Inode)
  nextIno : Nat
deriving DecidableEq, Repr

/-- `os.stat` result restricted to the fields the source reads:
`ST_INO`, `ST_NLINK`, `ST_MTIME`. -/
structure Stat where
  ino : Nat
  nlink : Nat
  mtime : Int
deriving DecidableEq, Repr

/-- Link count of an inode: how many directory entries reference it. -/
def FS.nlinkOf (fs : FS) (i : Nat) : Nat :=
  (fs.entries.filter (fun e => decide (e.2 = i))).length

/-- What a successful `os.stat(path)` reports. -/
def FS.statP (fs : FS) (p : String) : Option Stat :=
  match alookup fs.entries p with
  | none => none
  | some i =>
    match alookup fs.inodes i with
    | none => none
    | some ind => some ⟨i, fs.nlinkOf i, ind.mtime⟩

/-- `open(path, 'w')`: create the file (fresh inode) or truncate an existing
one; the modification time becomes the current time `now`. -/
def FS.openTrunc (fs : FS) (p : String) (now : Int) : FS :=
  match alookup fs.entries p with
  | some i => { fs with inodes := aset fs.inodes i ⟨now, ""⟩ }
  | none =>
    ⟨(p, fs.nextIno) :: fs.entries, aset fs.inodes fs.nextIno ⟨now, ""⟩, fs.nextIno + 1⟩

/-- `f.write(data)` on a freshly opened file: replace the content. -/
def FS.setData (fs : FS) (p d : String) : FS :=
  match alookup fs.entries p with
  | none => fs
  | some i =>
    match alookup fs.inodes i with
    | none => fs
    | some ind => { fs with inodes := aset fs.inodes i ⟨ind.mtime, d⟩ }

/-- The operation log: one entry per adapter primitive invoked, so that
"no filesystem interaction" is a statement about the log. -/
inductive FsOp where
  | writeOp (p : String)
  | readOp (p : String)
  | statOp (p : String)
  | linkOp (src dst : String)
  | unlinkOp (p : String)
  | utimeOp (p : String)
deriving DecidableEq, Repr

/-- The world the engine acts on: the shared filesystem plus the log of
adapter operations performed so far (newest first). -/
structure World where
  fs : FS
  log : List FsOp
deriving DecidableEq, Repr

/-! ### Raw OS calls (may raise) and the module-level adapter wrappers

Each `os_...` function is the raw OS call: `f = true` injects a raise
(`OSError`/`IOError`), and a missing file also raises.  Each wrapper below it
is the corresponding module-level function of `dotlock.py`; all of them except
`writefile` catch `(OSError, IOError)` and turn the failure into `None` /
no effect, exactly as in the source.  `writefile` has no `except` clause in
the source, so its wrapper re-raises. -/

def os_stat (f : Bool) (fs : FS) (p : String) : Except Unit Stat :=
  if f then Except.error ()
  else
    match fs.statP p with
    | none => Except.error ()
    | some st => Except.ok st

/-- `def stat(path): try: return os.stat(path) except (OSError, IOError): return None` -/
def stat (f : Bool) (w : World) (p : String) : Option Stat × World :=
  match os_stat f w.fs p with
  | Except.ok st => (some st, ⟨w.fs, FsOp.statOp p :: w.log⟩)
  | Except.error _ => (none, ⟨w.fs, FsOp.statOp p :: w.log⟩)

def os_read (f : Bool) (fs : FS) (p : String) : Except Unit String :=
  if f then Except.error ()
  else
    match alookup fs.entries p with
    | none => Except.error ()
    | some i =>
      match alookup fs.inodes i with
      | none => Except.error ()
      | some ind => Except.ok ind.data

/-- `def readfile(path): try: open/read/close except (OSError, IOError): pass`
(falls off the end on failure, i.e. returns `None`). -/
def readfile (f : Bool) (w : World) (p : String) : Option String × World :=
  match os_read f w.fs p with
  | Except.ok d => (some d, ⟨w.fs, FsOp.readOp p :: w.log⟩)
  | Except.error _ => (none, ⟨w.fs, FsOp.readOp p :: w.log⟩)

def os_utime (f : Bool) (fs : FS) (p : String) (t : Int) : Except Unit FS :=
  if f then Except.error ()
  else
    match alookup fs.entries p with
    | none => Except.error ()
    | some i =>
      match alookup fs.inodes i with
      | none => Except.error ()
      | some ind => Except.ok { fs with inodes := aset fs.inodes i ⟨t, ind.data⟩ }

/-- `def utime(path, t): try: os.utime(path, t) except (OSError, IOError): pass` -/
def utime (f : Bool) (w : World) (p : String) (t : Int) : World :=
  match os_utime f w.fs p t with
  | Except.ok fs1 => ⟨fs1, FsOp.utimeOp p :: w.log⟩
  | Except.error _ => ⟨w.fs, FsOp.utimeOp p :: w.log⟩

def os_link (f : Bool) (fs : FS) (src dst : String) : Except Unit FS :=
  if f then Except.error ()
  else
    match alookup fs.entries src with
    | none => Except.error ()
    | some i =>
      match alookup fs.entries dst with
      | some _ => Except.error ()
      | none => Except.ok { fs with entries := (dst, i) :: fs.entries }

/-- `def link(src, dst): try: os.link(src, dst) except (OSError, IOError): pass`
— hard-link creation is atomic and fails if the destination exists. -/
def link (f : Bool) (w : World) (src dst : String) : World :=
  match os_link f w.fs src dst with
  | Except.ok fs1 => ⟨fs1, FsOp.linkOp src dst :: w.log⟩
  | Except.error _ => ⟨w.fs, FsOp.linkOp src dst :: w.log⟩

def os_unlink (f : Bool) (fs : FS) (p : String) : Except Unit FS :=
  if f then Except.error ()
  else
    match alookup fs.entries p with
    | none => Except.error ()
    | some _ => Except.ok { fs with entries := aremove fs.entries p }

/-- `def unlink(path): try: os.unlink(path) except (OSError, IOError): pass` -/
def unlink (f : Bool) (w : World) (p : String) : World :=
  match os_unlink f w.fs p with
  | Except.ok fs1 => ⟨fs1, FsOp.unlinkOp p :: w.log⟩
  | Except.error _ => ⟨w.fs, FsOp.unlinkOp p :: w.log⟩

/-- `def writefile(path, data): f = open(path, 'w'); try: if data: f.write(data)
finally: f.close()` — note: NO `except` clause, so a failing `open` (fault
`fOpen`) or a failing `write` (fault `fWrite`) propagates to the caller.
A failed `open` has no effect; a failed `write` leaves the file truncated. -/
def writefile (fOpen fWrite : Bool) (now : Int) (w : World) (p d : String) :
    Except Unit Unit × World :=
  if fOpen then (Except.error (), w)
  else
    let w1 : World := ⟨w.fs.openTrunc p now, FsOp.writeOp p :: w.log⟩
    if d = "" then (Except.ok (), w1)
    else if fWrite then (Except.error (), w1)
    else (Except.ok (), ⟨w1.fs.setData p d, w1.log⟩)

/-! ### The lock engine

`class DotLock` splits into an immutable configuration `Cfg` (`path`,
`check_func`, and the three tunable thresholds, whose source defaults are
`valid_lock_age = 60`, `poll_interval = 15`, `hijack_delay = 15`) and the
mutable instance state `LState` (`self._skew`, `self._lock`).  `check_func`
is the externally supplied validity predicate; in the source it receives the
`DotLock` instance, so here it receives the engine state and the world. -/

structure LState where
  skew : Int
  lock : Option (Nat × String)
deriving DecidableEq, Repr

structure Cfg where
  path : String
  check_func : Option (LState → World → Bool)
  valid_lock_age : Int
  poll_interval : Int
  hijack_delay : Int

/-- `self.lockpath = path + ".lock"`. -/
def Cfg.lockpath (c : Cfg) : String := c.path ++ ".lock"

/-- The host / process / thread identifiers baked into lock records and
temp-file names (`socket.gethostname()`, `os.getpid()`,
`thread and thread.get_ident() or 0`). -/
structure ProcId where
  hostname : String
  pid : Nat
  tid : Nat
deriving DecidableEq, Repr

/-- `lockdata = "%s %s %s %s" % (hostname, pid, tid, time.time())`. -/
def mkLockdata (id : ProcId) (t : Int) : String :=
  id.hostname ++ " " ++ toString id.pid ++ " " ++ toString id.tid ++ " " ++ toString t

/-- `locktemp = "%stmp-%s-%s-%s" % (self.lockpath, hostname, pid, tid)`. -/
def mkLocktemp (lockpath : String) (id : ProcId) : String :=
  lockpath ++ "tmp-" ++ id.hostname ++ "-" ++ toString id.pid ++ "-" ++ toString id.tid

/-- `DotLockError` — the only exception class the engine itself raises
(`refresh` raises `DotLockError("Not locked")`). -/
inductive DotLockError where
  | notLocked
deriving DecidableEq, Repr

/-- `check_lock`: `return self.check_func and self.check_func(self)` —
falsy (`None`) when no predicate was supplied, else the predicate's verdict. -/
def check_lock (c : Cfg) (s : LState) (w : World) : Bool :=
  match c.check_func with
  | none => false
  | some f => f s w

/-- `is_locked`: re-verify the cached `self._lock` against the live lock file
(same `ST_INO` and exact content, with Python's left-to-right short-circuit:
`readfile` runs only if `stat` succeeded and the inode matched); on mismatch
clear `self._lock` and return `False`.  `fS`/`fR` inject faults into the
`stat` / `readfile` calls. -/
def is_locked (c : Cfg) (fS fR : Bool) (s : LState) (w : World) :
    Bool × LState × World :=
  match s.lock with
  | none => (false, s, w)
  | some (ino, lockdata) =>
    match stat fS w c.lockpath with
    | (none, w1) => (false, { s with lock := none }, w1)
    | (some st, w1) =>
      if st.ino = ino then
        match readfile fR w1 c.lockpath with
        | (rd, w2) =>
          if rd = some lockdata then (true, s, w2)
          else (false, { s with lock := none }, w2)
      else (false, { s with lock := none }, w1)

/-- `is_stale`: no lock file (or failed stat) means not stale; then
`age = now - st_mtime - skew`; young locks
(`age < max(2*hijack_delay, valid_lock_age)`) are not stale; otherwise the
lock is stale unless `check_lock()` affirms validity. -/
def is_stale (c : Cfg) (f : Bool) (now : Int) (s : LState) (w : World) :
    Bool × World :=
  match stat f w c.lockpath with
  | (none, w1) => (false, w1)
  | (some st, w1) =>
    if now - st.mtime - s.skew < max (2 * c.hijack_delay) c.valid_lock_age then (false, w1)
    else if check_lock c s w1 then (false, w1)
    else (true, w1)

/-- Fault injection for the five adapter calls `_trylock` makes. -/
structure TryFaults where
  fOpen : Bool
  fWrite : Bool
  fLink : Bool
  fStat : Bool
  fUnlink : Bool
deriving DecidableEq, Repr

def noTryFaults : TryFaults := ⟨false, false, false, false, false⟩

/-- `_trylock`: write the lock record to the unique temp file, attempt the
atomic `link` to the lock path, then stat the temp file: link count 2 means
the lock was acquired (`self._lock` is set to `(st_ino, lockdata)`), and the
measured clock skew `t1 - st_mtime` replaces `self._skew` when its magnitude
exceeds 1.  The temp file is unlinked in a `finally`.  `t0` is the
`time.time()` used for the lock record (and hence the temp file's mtime),
`t1` the one used for the skew measurement.  The bare `return` on a failed
stat yields Python `None`, hence the `Option Bool` result; a raising
`writefile` propagates (`Except.error`). -/
def trylock (c : Cfg) (id : ProcId) (t0 t1 : Int) (f : TryFaults) (s : LState)
    (w : World) : Except Unit (Option Bool) × LState × World :=
  match writefile f.fOpen f.fWrite t0 w (mkLocktemp c.lockpath id) (mkLockdata id t0) with
  | (Except.error e, w1) => (Except.error e, s, w1)
  | (Except.ok _, w1) =>
    match stat f.fStat (link f.fLink w1 (mkLocktemp c.lockpath id) c.lockpath)
        (mkLocktemp c.lockpath id) with
    | (none, w3) => (Except.ok none, s, unlink f.fUnlink w3 (mkLocktemp c.lockpath id))
    | (some st, w3) =>
      let s1 := if st.nlink = 2 then { s with lock := some (st.ino, mkLockdata id t0) } else s
      let s2 := if 1 < (t1 - st.mtime).natAbs then { s1 with skew := t1 - st.mtime } else s1
      (Except.ok (some s2.lock.isSome), s2, unlink f.fUnlink w3 (mkLocktemp c.lockpath id))

/-- Fault injection for the adapter calls `_hijacklock` makes. -/
structure HijFaults where
  fOpen : Bool
  fWrite : Bool
  fRead : Bool
  fStat : Bool
deriving DecidableEq, Repr

def noHijFaults : HijFaults := ⟨false, false, false, false⟩

/-- `_hijacklock`: overwrite the lock file with a fresh record, sleep
`hijack_delay`, re-read; if the content still matches, set `self._lock` from
the file's current identity and the written content.  The
`time.sleep(self.hijack_delay)` is the point where concurrent processes can
act; it is modelled by the world transform `adv` (the purely sequential case
is `adv = fun w => w`).  A raising `writefile` propagates. -/
def hijacklock (c : Cfg) (id : ProcId) (t0 : Int) (f : HijFaults)
    (adv : World → World) (s : LState) (w : World) :
    Except Unit Bool × LState × World :=
  match writefile f.fOpen f.fWrite t0 w c.lockpath (mkLockdata id t0) with
  | (Except.error e, w1) => (Except.error e, s, w1)
  | (Except.ok _, w1) =>
    match readfile f.fRead (adv w1) c.lockpath with
    | (rd, w2) =>
      if rd ≠ some (mkLockdata id t0) then (Except.ok false, s, w2)
      else
        match stat f.fStat w2 c.lockpath with
        | (none, w3) => (Except.ok false, s, w3)
        | (some st, w3) => (Except.ok true, { s with lock := some (st.ino, mkLockdata id t0) }, w3)

/-- Fault injection for the adapter calls `release` makes. -/
structure RelFaults where
  fStat : Bool
  fRead : Bool
  fUnlink : Bool
deriving DecidableEq, Repr

def noRelFaults : RelFaults := ⟨false, false, false⟩

/-- `release`: a no-op without a cached lock; otherwise re-verify via
`is_locked()` and only then unlink the lock file and clear `self._lock`.
Total (never raises): every adapter call it makes swallows failures. -/
def release (c : Cfg) (f : RelFaults) (s : LState) (w : World) : LState × World :=
  match s.lock with
  | none => (s, w)
  | some _ =>
    match is_locked c f.fStat f.fRead s w with
    | (false, s1, w1) => (s1, w1)
    | (true, s1, w1) => ({ s1 with lock := none }, unlink f.fUnlink w1 c.lockpath)

/-- Fault injection for the adapter calls `refresh` makes. -/
structure RefFaults where
  fStat : Bool
  fRead : Bool
  fUtime : Bool
deriving DecidableEq, Repr

/-- `refresh`: raise `DotLockError("Not locked")` when `is_locked()` is false,
else set the lock file's times to `time.time() - self._skew` (best-effort
`utime`). -/
def refresh (c : Cfg) (now : Int) (f : RefFaults) (s : LState) (w : World) :
    Except DotLockError Unit × LState × World :=
  match is_locked c f.fStat f.fRead s w with
  | (false, s1, w1) => (Except.error DotLockError.notLocked, s1, w1)
  | (true, s1, w1) => (Except.ok (), s1, utime f.fUtime w1 c.lockpath (now - s1.skew))

/-- The outcome of one `acquire` call: Python `return` (bare, value `None`),
`return True`, `return False`, a propagated exception, or — since the
potentially unbounded polling loop is modelled with fuel — still polling
when the fuel runs out. -/
inductive AcqRes where
  | retNone
  | retTrue
  | retFalse
  | exn
  | spin
deriving DecidableEq, Repr

/-- The per-iteration inputs of the `acquire` polling loop: identifiers, the
`time.time()` observations, injected faults, and the world transforms that
stand for other processes acting during `time.sleep` (`hadv` for the hijack
delay, `padv` for the poll-interval sleep). -/
structure IterIn where
  id : ProcId
  t0 : Int
  t1 : Int
  tf : TryFaults
  ts : Int
  sf : Bool
  th : Int
  hf : HijFaults
  hadv : World → World
  padv : World → World

/-- The `if max_attempts: i = i + 1; if i >= max_attempts: return False`
bookkeeping; `max_attempts` is `None` or an integer, and Python truthiness
makes `0` behave like `None`.  Returns the new counter and the stop flag. -/
def bump (ma : Option Int) (i : Int) : Int × Bool :=
  match ma with
  | none => (i, false)
  | some m => if m = 0 then (i, false) else (i + 1, decide (m ≤ i + 1))

/-- The body of `acquire`'s `while True` loop, fuel-bounded.  Faithful order:
`_trylock` (truthy only for `True`), then `is_stale`, then `_hijacklock` when
stale, then the attempt bookkeeping, then `time.sleep(poll_interval)`. -/
def acquireGo (c : Cfg) (sched : Nat → IterIn) (ma : Option Int) :
    Nat → Nat → Int → LState → World → AcqRes × LState × World
  | 0, _, _, s, w => (AcqRes.spin, s, w)
  | fuel + 1, step, i, s, w =>
    match trylock c (sched step).id (sched step).t0 (sched step).t1 (sched step).tf s w with
    | (Except.error _, s1, w1) => (AcqRes.exn, s1, w1)
    | (Except.ok r, s1, w1) =>
      if r = some true then (AcqRes.retTrue, s1, w1)
      else
        match is_stale c (sched step).sf (sched step).ts s1 w1 with
        | (stale, w2) =>
          match (if stale then
                   hijacklock c (sched step).id (sched step).th (sched step).hf
                     (sched step).hadv s1 w2
                 else (Except.ok false, s1, w2)) with
          | (Except.error _, s2, w3) => (AcqRes.exn, s2, w3)
          | (Except.ok true, s2, w3) => (AcqRes.retTrue, s2, w3)
          | (Except.ok false, s2, w3) =>
            match bump ma i with
            | (_, true) => (AcqRes.retFalse, s2, w3)
            | (i1, false) => acquireGo c sched ma fuel (step + 1) i1 s2 ((sched step).padv w3)

/-- `acquire(max_attempts)`: the `if self.is_locked(): return` fast path
(bare `return`, i.e. `None`), then the polling loop.  `f1`/`f2` are the fault
flags of the initial `is_locked`'s `stat`/`readfile`. -/
def acquire (c : Cfg) (f1 f2 : Bool) (sched : Nat → IterIn) (ma : Option Int)
    (fuel : Nat) (s : LState) (w : World) : AcqRes × LState × World :=
  match is_locked c f1 f2 s w with
  | (true, s1, w1) => (AcqRes.retNone, s1, w1)
  | (false, s1, w1) => acquireGo c sched ma fuel 0 0 s1 w1

/-! ### Basic lemmas about the finite-map operations and the name scheme -/

theorem alookup_nil {κ α : Type} [DecidableEq κ] (k : κ) :
    alookup ([] : List (κ × α)) k = none := rfl

theorem alookup_cons_self {κ α : Type} [DecidableEq κ] (k : κ) (v : α) (t : List (κ × α)) :
    alookup ((k, v) :: t) k = some v := by
  simp [alookup]

theorem alookup_cons_ne {κ α : Type} [DecidableEq κ] {k k0 : κ} (h : k ≠ k0) (v : α)
    (t : List (κ × α)) : alookup ((k, v) :: t) k0 = alookup t k0 := by
  simp [alookup, h]

theorem alookup_aset_self {κ α : Type} [DecidableEq κ] (l : List (κ × α)) (k : κ) (v : α) :
    alookup (aset l k v) k = some v := by
  induction l with
  | nil => simp [aset, alookup]
  | cons hd t ih =>
    rcases hd with ⟨k0, v0⟩
    by_cases h : k0 = k
    · subst h
      simp [aset, alookup]
    · simp [aset, h, alookup, ih]

theorem alookup_aset_ne {κ α : Type} [DecidableEq κ] {k k1 : κ} (h : k ≠ k1)
    (l : List (κ × α)) (v : α) : alookup (aset l k v) k1 = alookup l k1 := by
  induction l with
  | nil => simp [aset, alookup, h]
  | cons hd t ih =>
    rcases hd with ⟨k0, v0⟩
    by_cases h0 : k0 = k
    · subst h0
      simp [aset, alookup, h]
    · simp [aset, h0, alookup, ih]

theorem aremove_cons_self {κ α : Type} [DecidableEq κ] (k : κ) (v : α) (t : List (κ × α)) :
    aremove ((k, v) :: t) k = aremove t k := by
  simp [aremove]

theorem aremove_cons_ne {κ α : Type} [DecidableEq κ] {k0 k : κ} (h : k0 ≠ k) (v : α)
    (t : List (κ × α)) : aremove ((k0, v) :: t) k = (k0, v) :: aremove t k := by
  simp [aremove, h]

/-- The temp-file name strictly extends the lock-file name, so they differ. -/
theorem mkLocktemp_ne (lockpath : String) (id : ProcId) :
    mkLocktemp lockpath id ≠ lockpath := by
  intro h
  have h1 := congrArg String.length h
  have h2 : String.length "tmp-" = 4 := by decide
  have h3 : String.length "-" = 1 := by decide
  simp [mkLocktemp, String.length_append, h2, h3] at h1
  omega

/-- A lock record contains spaces, so it is never the empty string
(`if data:` in `writefile` therefore takes the write branch). -/
theorem mkLockdata_ne_nil (id : ProcId) (t : Int) : mkLockdata id t ≠ "" := by
  intro h
  have h1 := congrArg String.length h
  have h2 : String.length " " = 1 := by decide
  have h3 : String.length "" = 0 := by decide
  simp [mkLockdata, String.length_append, h2, h3] at h1

/-! ### Adapter-level lemmas -/

theorem stat_fs (f : Bool) (w : World) (p : String) : (stat f w p).2.fs = w.fs := by
  unfold stat
  cases h : os_stat f w.fs p with
  | ok st => simp [h]
  | error e => simp [h]

theorem stat_log (f : Bool) (w : World) (p : String) :
    (stat f w p).2.log = FsOp.statOp p :: w.log := by
  unfold stat
  cases h : os_stat f w.fs p with
  | ok st => simp [h]
  | error e => simp [h]

theorem readfile_fs (f : Bool) (w : World) (p : String) : (readfile f w p).2.fs = w.fs := by
  unfold readfile
  cases h : os_read f w.fs p with
  | ok d => simp [h]
  | error e => simp [h]

theorem readfile_log (f : Bool) (w : World) (p : String) :
    (readfile f w p).2.log = FsOp.readOp p :: w.log := by
  unfold readfile
  cases h : os_read f w.fs p with
  | ok d => simp [h]
  | error e => simp [h]

/-- A successful wrapped `stat` reports a directory entry that is really
there, pointing at an inode that is really there with the reported mtime. -/
theorem stat_some_inv {f : Bool} {w : World} {p : String} {st : Stat}
    (h : (stat f w p).1 = some st) :
    alookup w.fs.entries p = some st.ino ∧
    ∃ ind, alookup w.fs.inodes st.ino = some ind ∧ ind.mtime = st.mtime := by
  unfold stat os_stat FS.statP at h
  by_cases hf : f
  · simp [hf] at h
  · rcases he : alookup w.fs.entries p with _ | i
    · simp [hf, he] at h
    · rcases hi : alookup w.fs.inodes i with _ | ind
      · simp [hf, he, hi] at h
      · simp [hf, he, hi] at h
        subst h
        exact ⟨rfl, ind, hi, rfl⟩

/-- A successful wrapped `readfile` returns exactly the content of the inode
the path currently resolves to. -/
theorem readfile_some_inv {f : Bool} {w : World} {p : String} {d : String}
    (h : (readfile f w p).1 = some d) :
    ∃ i ind, alookup w.fs.entries p = some i ∧ alookup w.fs.inodes i = some ind ∧
      ind.data = d := by
  unfold readfile os_read at h
  by_cases hf : f
  · simp [hf] at h
  · rcases he : alookup w.fs.entries p with _ | i
    · simp [hf, he] at h
    · rcases hi : alookup w.fs.inodes i with _ | ind
      · simp [hf, he, hi] at h
      · simp [hf, he, hi] at h
        exact ⟨i, ind, rfl, hi, h⟩

/-! ### `is_locked` lemmas -/

/-- When the cached lock accurately describes the live lock file, the
fault-free `is_locked` succeeds, leaves the engine state untouched and
performs exactly one `stat` and one `readfile`. -/
theorem is_locked_owner (c : Cfg) (s : LState) (w : World) (i : Nat) (m : Int) (d : String)
    (hl : s.lock = some (i, d)) (he : alookup w.fs.entries c.lockpath = some i)
    (hd : alookup w.fs.inodes i = some ⟨m, d⟩) :
    is_locked c false false s w =
      (true, s, ⟨w.fs, FsOp.readOp c.lockpath :: FsOp.statOp c.lockpath :: w.log⟩) := by
  simp [is_locked, hl, stat, os_stat, FS.statP, he, hd, readfile, os_read]

/-- `is_locked` never touches the filesystem (it only stats and reads). -/
theorem is_locked_fs (c : Cfg) (fS fR : Bool) (s : LState) (w : World) :
    (is_locked c fS fR s w).2.2.fs = w.fs := by
  unfold is_locked
  rcases hl : s.lock with _ | pr
  · rfl
  · rcases pr with ⟨ino, d⟩
    rcases hst : stat fS w c.lockpath with ⟨st?, w1⟩
    have hw1 : w1.fs = w.fs := by
      have h0 := stat_fs fS w c.lockpath
      rw [hst] at h0
      exact h0
    rcases st? with _ | st
    · simpa using hw1
    · by_cases hino : st.ino = ino
      · rcases hrd : readfile fR w1 c.lockpath with ⟨rd, w2⟩
        have hw2 : w2.fs = w1.fs := by
          have h0 := readfile_fs fR w1 c.lockpath
          rw [hrd] at h0
          exact h0
        by_cases hr : rd = some d
        · simp [hino, hrd, hr, hw2, hw1]
        · simp [hino, hrd, hr, hw2, hw1]
      · simpa [hino] using hw1

theorem is_locked_lock_cases (c : Cfg) (fS fR : Bool) (s : LState) (w : World) :
    (is_locked c fS fR s w).2.1.lock = none ∨
    ((is_locked c fS fR s w).1 = true ∧ (is_locked c fS fR s w).2.1 = s) := by
  unfold is_locked
  split
  · rename_i heq
    exact Or.inl heq
  · rename_i ino d heq
    split
    · exact Or.inl rfl
    · split
      · split
        split
        · exact Or.inr ⟨rfl, rfl⟩
        · exact Or.inl rfl
      · exact Or.inl rfl

theorem stat_fault_none (w : World) (p : String) : (stat true w p).1 = none := rfl

theorem readfile_fault_none (w : World) (p : String) : (readfile true w p).1 = none := rfl

theorem is_locked_true_inv (c : Cfg) (fS fR : Bool) (s : LState) (w : World)
    (h : (is_locked c fS fR s w).1 = true) :
    fS = false ∧ fR = false ∧
    ∃ i d m, s.lock = some (i, d) ∧
      alookup w.fs.entries c.lockpath = some i ∧
      alookup w.fs.inodes i = some ⟨m, d⟩ := by
  unfold is_locked at h
  split at h
  · simp at h
  · rename_i ino d heq
    split at h
    · simp at h
    · rename_i st w1 hst
      split at h
      · rename_i hino
        split at h
        rename_i rd w2 hrd
        split at h
        · rename_i hr
          have hstat1 : (stat fS w c.lockpath).1 = some st := by rw [hst]
          have hfS : fS = false := by
            cases fS with
            | false => rfl
            | true => rw [stat_fault_none] at hstat1; exact absurd hstat1 (by simp)
          have hread1 : (readfile fR w1 c.lockpath).1 = some d := by rw [hrd, hr]
          have hfR : fR = false := by
            cases fR with
            | false => rfl
            | true => rw [readfile_fault_none] at hread1; exact absurd hread1 (by simp)
          rcases stat_some_inv hstat1 with ⟨he, ind, hi, hm⟩
          rcases readfile_some_inv hread1 with ⟨j, ind2, he2, hi2, hd2⟩
          have hw1 : w1.fs = w.fs := by
            have h0 := stat_fs fS w c.lockpath
            rw [hst] at h0
            exact h0
          rw [hw1] at he2 hi2
          have hj : st.ino = j := by
            rw [he] at he2
            exact Option.some.inj he2
          have hind : ind2 = ind := by
            rw [← hj] at hi2
            rw [hi] at hi2
            exact (Option.some.inj hi2).symm
          have hdata : ind.data = d := by
            rw [← hind]
            exact hd2
          refine ⟨hfS, hfR, ino, d, ind.mtime, heq, ?_, ?_⟩
          · rw [← hino]
            exact he
          · rw [← hino, hi, ← hdata]
        · simp at h
      · simp at h

/-! ### Shared concrete examples (used by witnesses and counterexamples) -/

def cEx : Cfg := ⟨"f", none, 60, 15, 15⟩

def idEx : ProcId := ⟨"h", 1, 0⟩

def idEx2 : ProcId := ⟨"g", 2, 0⟩

def wEmpty : World := ⟨⟨[], [], 0⟩, []⟩

def sEmpty : LState := ⟨0, none⟩

/-- A world in which the lock file `"f.lock"` exists with inode 0, mtime 100
and content `"h 1 0 100"` (what `idEx` would have written at time 100). -/
def wHeld : World := ⟨⟨[("f.lock", 0)], [(0, ⟨100, "h 1 0 100"⟩)], 1⟩, []⟩

/-- The engine state of the holder matching `wHeld`. -/
def sHeld : LState := ⟨0, some (0, "h 1 0 100")⟩

/-- A trivial iteration schedule for `acquire` (identity sleeps, no faults). -/
def schedEx : Nat → IterIn :=
  fun _ => ⟨idEx2, 200, 200, noTryFaults, 110, false, 0, noHijFaults,
            (fun w => w), (fun w => w)⟩

/-! ### `_trylock` and `release` characterization lemmas -/

theorem aremove_nil {κ α : Type} [DecidableEq κ] (k : κ) :
    aremove ([] : List (κ × α)) k = [] := rfl

/-- `_trylock` when the lock file already exists (fault-free): the hard link
fails, the temp file has link count 1, so the cached lock and the lock file
are unchanged; the temp file is cleaned up; the returned value is the
truthiness of the (unchanged) cached lock. -/
theorem trylock_present (c : Cfg) (id : ProcId) (t0 t1 : Int) (s : LState) (w : World)
    (i : Nat) (hw : w.fs.entries = [(c.lockpath, i)]) (hi : i < w.fs.nextIno) :
    (trylock c id t0 t1 noTryFaults s w).1 = Except.ok (some s.lock.isSome) ∧
    (trylock c id t0 t1 noTryFaults s w).2.1.lock = s.lock ∧
    (trylock c id t0 t1 noTryFaults s w).2.2.fs.entries = [(c.lockpath, i)] ∧
    alookup (trylock c id t0 t1 noTryFaults s w).2.2.fs.inodes i = alookup w.fs.inodes i ∧
    (trylock c id t0 t1 noTryFaults s w).2.2.fs.nextIno = w.fs.nextIno + 1 := by
  have hne : mkLocktemp c.lockpath id ≠ c.lockpath := mkLocktemp_ne _ _
  have hne' : c.lockpath ≠ mkLocktemp c.lockpath id := Ne.symm hne
  have hd : mkLockdata id t0 ≠ "" := mkLockdata_ne_nil _ _
  have hin : i ≠ w.fs.nextIno := Nat.ne_of_lt hi
  have h1 : writefile false false t0 w (mkLocktemp c.lockpath id) (mkLockdata id t0)
      = (Except.ok (),
         ⟨⟨[(mkLocktemp c.lockpath id, w.fs.nextIno), (c.lockpath, i)],
           aset (aset w.fs.inodes w.fs.nextIno ⟨t0, ""⟩) w.fs.nextIno ⟨t0, mkLockdata id t0⟩,
           w.fs.nextIno + 1⟩,
          FsOp.writeOp (mkLocktemp c.lockpath id) :: w.log⟩) := by
    simp only [writefile, FS.openTrunc, FS.setData, hw, if_neg hd,
      alookup_cons_ne hne', alookup_nil, alookup_cons_self, alookup_aset_self,
      if_false, ite_false, Bool.false_eq_true]
  have h2 : link false
      (⟨⟨[(mkLocktemp c.lockpath id, w.fs.nextIno), (c.lockpath, i)],
         aset (aset w.fs.inodes w.fs.nextIno ⟨t0, ""⟩) w.fs.nextIno ⟨t0, mkLockdata id t0⟩,
         w.fs.nextIno + 1⟩,
        FsOp.writeOp (mkLocktemp c.lockpath id) :: w.log⟩ : World)
      (mkLocktemp c.lockpath id) c.lockpath
      = ⟨⟨[(mkLocktemp c.lockpath id, w.fs.nextIno), (c.lockpath, i)],
          aset (aset w.fs.inodes w.fs.nextIno ⟨t0, ""⟩) w.fs.nextIno ⟨t0, mkLockdata id t0⟩,
          w.fs.nextIno + 1⟩,
         FsOp.linkOp (mkLocktemp c.lockpath id) c.lockpath ::
           FsOp.writeOp (mkLocktemp c.lockpath id) :: w.log⟩ := by
    simp [link, os_link, alookup_cons_self, alookup_cons_ne hne, alookup_cons_ne hne',
      alookup_nil]
  have h3 : stat false
      (⟨⟨[(mkLocktemp c.lockpath id, w.fs.nextIno), (c.lockpath, i)],
         aset (aset w.fs.inodes w.fs.nextIno ⟨t0, ""⟩) w.fs.nextIno ⟨t0, mkLockdata id t0⟩,
         w.fs.nextIno + 1⟩,
        FsOp.linkOp (mkLocktemp c.lockpath id) c.lockpath ::
          FsOp.writeOp (mkLocktemp c.lockpath id) :: w.log⟩ : World)
      (mkLocktemp c.lockpath id)
      = (some ⟨w.fs.nextIno, 1, t0⟩,
         ⟨⟨[(mkLocktemp c.lockpath id, w.fs.nextIno), (c.lockpath, i)],
           aset (aset w.fs.inodes w.fs.nextIno ⟨t0, ""⟩) w.fs.nextIno ⟨t0, mkLockdata id t0⟩,
           w.fs.nextIno + 1⟩,
          FsOp.statOp (mkLocktemp c.lockpath id) ::
            FsOp.linkOp (mkLocktemp c.lockpath id) c.lockpath ::
              FsOp.writeOp (mkLocktemp c.lockpath id) :: w.log⟩) := by
    simp [stat, os_stat, FS.statP, FS.nlinkOf, alookup_cons_self, alookup_aset_self,
      List.filter, hin]
  have h4 : unlink false
      (⟨⟨[(mkLocktemp c.lockpath id, w.fs.nextIno), (c.lockpath, i)],
         aset (aset w.fs.inodes w.fs.nextIno ⟨t0, ""⟩) w.fs.nextIno ⟨t0, mkLockdata id t0⟩,
         w.fs.nextIno + 1⟩,
        FsOp.statOp (mkLocktemp c.lockpath id) ::
          FsOp.linkOp (mkLocktemp c.lockpath id) c.lockpath ::
            FsOp.writeOp (mkLocktemp c.lockpath id) :: w.log⟩ : World)
      (mkLocktemp c.lockpath id)
      = ⟨⟨[(c.lockpath, i)],
          aset (aset w.fs.inodes w.fs.nextIno ⟨t0, ""⟩) w.fs.nextIno ⟨t0, mkLockdata id t0⟩,
          w.fs.nextIno + 1⟩,
         FsOp.unlinkOp (mkLocktemp c.lockpath id) ::
           FsOp.statOp (mkLocktemp c.lockpath id) ::
             FsOp.linkOp (mkLocktemp c.lockpath id) c.lockpath ::
               FsOp.writeOp (mkLocktemp c.lockpath id) :: w.log⟩ := by
    simp [unlink, os_unlink, alookup_cons_self, aremove_cons_self,
      aremove_cons_ne hne', aremove_nil]
  have hni : w.fs.nextIno ≠ i := Ne.symm hin
  have h12 : ((1 : Nat) = 2) = False := by simp
  refine ⟨?_, ?_, ?_, ?_, ?_⟩ <;>
    simp only [trylock, noTryFaults, h1, h2, h3, h4, h12, if_false, ite_false,
      alookup_aset_ne hni] <;>
    by_cases hsk : 1 < (t1 - t0).natAbs <;>
    simp [hsk, alookup_aset_ne hni]

/-- `_trylock` when no lock file exists (fault-free): the link succeeds, the
temp file has link count 2, the engine acquires `(nextIno, lockdata)` and the
filesystem afterwards has exactly the lock file, holding the written record. -/
theorem trylock_absent (c : Cfg) (id : ProcId) (t0 t1 : Int) (s : LState) (w : World)
    (hw : w.fs.entries = []) :
    (trylock c id t0 t1 noTryFaults s w).1 = Except.ok (some true) ∧
    (trylock c id t0 t1 noTryFaults s w).2.1.lock = some (w.fs.nextIno, mkLockdata id t0) ∧
    (trylock c id t0 t1 noTryFaults s w).2.2.fs.entries = [(c.lockpath, w.fs.nextIno)] ∧
    alookup (trylock c id t0 t1 noTryFaults s w).2.2.fs.inodes w.fs.nextIno
      = some ⟨t0, mkLockdata id t0⟩ ∧
    (trylock c id t0 t1 noTryFaults s w).2.2.fs.nextIno = w.fs.nextIno + 1 := by
  have hne : mkLocktemp c.lockpath id ≠ c.lockpath := mkLocktemp_ne _ _
  have hne' : c.lockpath ≠ mkLocktemp c.lockpath id := Ne.symm hne
  have hd : mkLockdata id t0 ≠ "" := mkLockdata_ne_nil _ _
  have h1 : writefile false false t0 w (mkLocktemp c.lockpath id) (mkLockdata id t0)
      = (Except.ok (),
         ⟨⟨[(mkLocktemp c.lockpath id, w.fs.nextIno)],
           aset (aset w.fs.inodes w.fs.nextIno ⟨t0, ""⟩) w.fs.nextIno ⟨t0, mkLockdata id t0⟩,
           w.fs.nextIno + 1⟩,
          FsOp.writeOp (mkLocktemp c.lockpath id) :: w.log⟩) := by
    simp [writefile, FS.openTrunc, FS.setData, hw, if_neg hd,
      alookup_nil, alookup_cons_self, alookup_aset_self]
  have h2 : link false
      (⟨⟨[(mkLocktemp c.lockpath id, w.fs.nextIno)],
         aset (aset w.fs.inodes w.fs.nextIno ⟨t0, ""⟩) w.fs.nextIno ⟨t0, mkLockdata id t0⟩,
         w.fs.nextIno + 1⟩,
        FsOp.writeOp (mkLocktemp c.lockpath id) :: w.log⟩ : World)
      (mkLocktemp c.lockpath id) c.lockpath
      = ⟨⟨[(c.lockpath, w.fs.nextIno), (mkLocktemp c.lockpath id, w.fs.nextIno)],
          aset (aset w.fs.inodes w.fs.nextIno ⟨t0, ""⟩) w.fs.nextIno ⟨t0, mkLockdata id t0⟩,
          w.fs.nextIno + 1⟩,
         FsOp.linkOp (mkLocktemp c.lockpath id) c.lockpath ::
           FsOp.writeOp (mkLocktemp c.lockpath id) :: w.log⟩ := by
    simp [link, os_link, alookup_cons_self, alookup_cons_ne hne, alookup_nil]
  have h3 : stat false
      (⟨⟨[(c.lockpath, w.fs.nextIno), (mkLocktemp c.lockpath id, w.fs.nextIno)],
         aset (aset w.fs.inodes w.fs.nextIno ⟨t0, ""⟩) w.fs.nextIno ⟨t0, mkLockdata id t0⟩,
         w.fs.nextIno + 1⟩,
        FsOp.linkOp (mkLocktemp c.lockpath id) c.lockpath ::
          FsOp.writeOp (mkLocktemp c.lockpath id) :: w.log⟩ : World)
      (mkLocktemp c.lockpath id)
      = (some ⟨w.fs.nextIno, 2, t0⟩,
         ⟨⟨[(c.lockpath, w.fs.nextIno), (mkLocktemp c.lockpath id, w.fs.nextIno)],
           aset (aset w.fs.inodes w.fs.nextIno ⟨t0, ""⟩) w.fs.nextIno ⟨t0, mkLockdata id t0⟩,
           w.fs.nextIno + 1⟩,
          FsOp.statOp (mkLocktemp c.lockpath id) ::
            FsOp.linkOp (mkLocktemp c.lockpath id) c.lockpath ::
              FsOp.writeOp (mkLocktemp c.lockpath id) :: w.log⟩) := by
    simp [stat, os_stat, FS.statP, FS.nlinkOf, alookup_cons_self, alookup_cons_ne hne',
      alookup_aset_self, List.filter]
  have h4 : unlink false
      (⟨⟨[(c.lockpath, w.fs.nextIno), (mkLocktemp c.lockpath id, w.fs.nextIno)],
         aset (aset w.fs.inodes w.fs.nextIno ⟨t0, ""⟩) w.fs.nextIno ⟨t0, mkLockdata id t0⟩,
         w.fs.nextIno + 1⟩,
        FsOp.statOp (mkLocktemp c.lockpath id) ::
          FsOp.linkOp (mkLocktemp c.lockpath id) c.lockpath ::
            FsOp.writeOp (mkLocktemp c.lockpath id) :: w.log⟩ : World)
      (mkLocktemp c.lockpath id)
      = ⟨⟨[(c.lockpath, w.fs.nextIno)],
          aset (aset w.fs.inodes w.fs.nextIno ⟨t0, ""⟩) w.fs.nextIno ⟨t0, mkLockdata id t0⟩,
          w.fs.nextIno + 1⟩,
         FsOp.unlinkOp (mkLocktemp c.lockpath id) ::
           FsOp.statOp (mkLocktemp c.lockpath id) ::
             FsOp.linkOp (mkLocktemp c.lockpath id) c.lockpath ::
               FsOp.writeOp (mkLocktemp c.lockpath id) :: w.log⟩ := by
    simp [unlink, os_unlink, alookup_cons_self, alookup_cons_ne hne', aremove_cons_self,
      aremove_cons_ne hne', aremove_nil]
  refine ⟨?_, ?_, ?_, ?_, ?_⟩ <;>
    simp only [trylock, noTryFaults, h1, h2, h3, h4, if_true, ite_true] <;>
    by_cases hsk : 1 < (t1 - t0).natAbs <;>
    simp [hsk, alookup_aset_self]

/-- `release` when the cached lock accurately matches the live lock file
(fault-free): the lock file is unlinked and the cached lock cleared; nothing
else in the filesystem changes. -/
theorem release_owner (c : Cfg) (s : LState) (w : World) (i : Nat) (m : Int) (d : String)
    (hl : s.lock = some (i, d)) (hw : w.fs.entries = [(c.lockpath, i)])
    (hd : alookup w.fs.inodes i = some ⟨m, d⟩) :
    (release c noRelFaults s w).1 = ⟨s.skew, none⟩ ∧
    (release c noRelFaults s w).2.fs.entries = [] ∧
    (release c noRelFaults s w).2.fs.inodes = w.fs.inodes ∧
    (release c noRelFaults s w).2.fs.nextIno = w.fs.nextIno := by
  have he : alookup w.fs.entries c.lockpath = some i := by
    rw [hw]
    exact alookup_cons_self _ _ _
  have hil := is_locked_owner c s w i m d hl he hd
  simp [release, noRelFaults, hl, hil, unlink, os_unlink, he, hw, alookup_cons_self,
    aremove_cons_self, aremove_nil]

/-- `release` without a cached lock is the identity (not even a log entry). -/
theorem release_nolock (c : Cfg) (f : RelFaults) (s : LState) (w : World)
    (hl : s.lock = none) : release c f s w = (s, w) := by
  simp [release, hl]

/-! ### Claim C2 -/

/-- C2 counterexample: the claim "none of the six adapter primitives ever
propagates a raw I/O failure as an exception to the engine" is FALSE for
`writefile`, which has no `except` clause in the source: a failing `open`
(first conjunct) or a failing `write` (second conjunct) propagates, and via
`_trylock` the exception escapes the engine itself (third conjunct). -/
theorem C2_counterexample :
    (writefile true false 0 wEmpty "p" "d").1 = Except.error () ∧
    (writefile false true 0 wEmpty "p" "d").1 = Except.error () ∧
    (trylock cEx idEx 0 0 ⟨true, false, false, false, false⟩ sEmpty wEmpty).1
      = Except.error () :=
  ⟨rfl, rfl, rfl⟩

/-- C2 (amended): five of the six adapter primitives — `stat`, `readfile`,
`utime`, `link`, `unlink` — swallow raw I/O failures, observed only as
"no value / no effect" (their wrappers catch `(OSError, IOError)`, and by
their very types they return plain values, never exceptions); `writefile`
alone propagates a raw failure of `open` or `write` as an exception. -/
theorem C2_amended_five_swallow_writefile_raises (w : World) (p src dst : String)
    (t now : Int) (d : String) :
    (stat true w p).1 = none ∧ (stat true w p).2.fs = w.fs ∧
    (readfile true w p).1 = none ∧ (readfile true w p).2.fs = w.fs ∧
    (utime true w p t).fs = w.fs ∧
    (link true w src dst).fs = w.fs ∧
    (unlink true w p).fs = w.fs ∧
    (writefile true false now w p d).1 = Except.error () ∧
    (writefile true false now w p d).2 = w :=
  ⟨rfl, rfl, rfl, rfl, rfl, rfl, rfl, rfl, rfl⟩

/-! ### Claim C3 -/

/-- C3: `is_stale()` returns false when the lock file cannot be statted
(second conjunct); otherwise it returns true exactly when the age
`now - mtime - skew` has reached `max(2*hijack_delay, valid_lock_age)` and
`check_lock()` does not affirm validity (first conjunct). -/
theorem C3_is_stale_spec (c : Cfg) (f : Bool) (now : Int) (s : LState) (w : World) :
    ((is_stale c f now s w).1 = true ↔
      ∃ st, (stat f w c.lockpath).1 = some st ∧
        ¬(now - st.mtime - s.skew < max (2 * c.hijack_delay) c.valid_lock_age) ∧
        check_lock c s (stat f w c.lockpath).2 = false) ∧
    ((stat f w c.lockpath).1 = none → (is_stale c f now s w).1 = false) := by
  unfold is_stale
  rcases hst : stat f w c.lockpath with ⟨st?, w1⟩
  rcases st? with _ | st
  · simp
  · by_cases hage : now - st.mtime - s.skew < max (2 * c.hijack_delay) c.valid_lock_age
    · simp [hage]
      intro h1 h2
      exact absurd hage (not_lt.mpr (max_le h1 h2))
    · by_cases hcl : check_lock c s w1
      · simp [hage, hcl]
      · simp [hage, hcl]
        exact ⟨le_trans (le_max_left _ _) (not_lt.1 hage),
               le_trans (le_max_right _ _) (not_lt.1 hage)⟩

/-- C3 witness: in the concrete held world (mtime 100), at time 300 with no
external validator the lock is stale. -/
theorem C3_witness : (is_stale cEx false 300 sEmpty wHeld).1 = true :=
  ((C3_is_stale_spec cEx false 300 sEmpty wHeld).1).mpr
    ⟨⟨0, 1, 100⟩, rfl, by decide, rfl⟩

/-! ### Claim C10 -/

theorem bump_zero_eq_none (i : Int) : bump (some 0) i = bump none i := rfl

theorem acquireGo_zero_eq_none (c : Cfg) (sched : Nat → IterIn) :
    ∀ fuel step (i : Int) (s : LState) (w : World),
      acquireGo c sched (some 0) fuel step i s w = acquireGo c sched none fuel step i s w := by
  intro fuel
  induction fuel with
  | zero =>
    intro step i s w
    rfl
  | succ n ih =>
    intro step i s w
    simp only [acquireGo]
    rcases htl : trylock c (sched step).id (sched step).t0 (sched step).t1 (sched step).tf s w
      with ⟨r, s1, w1⟩
    rcases r with e | r
    · rfl
    · by_cases hr : r = some true
      · simp [hr]
      · simp only [hr, if_false, ite_false, Bool.false_eq_true]
        rcases hstale : is_stale c (sched step).sf (sched step).ts s1 w1 with ⟨stale, w2⟩
        rcases hh : (if stale then
            hijacklock c (sched step).id (sched step).th (sched step).hf (sched step).hadv s1 w2
          else (Except.ok false, s1, w2)) with ⟨r2, s2, w3⟩
        rcases r2 with e2 | b2
        · rfl
        · rcases b2 with _ | _
          · simp only [bump_zero_eq_none]
            rcases bump none i with ⟨i1, stop⟩
            rcases stop with _ | _
            · exact ih (step + 1) i1 s2 ((sched step).padv w3)
            · rfl
          · rfl

theorem acquireGo_none_ne_retFalse (c : Cfg) (sched : Nat → IterIn) :
    ∀ fuel step (i : Int) (s : LState) (w : World),
      (acquireGo c sched none fuel step i s w).1 ≠ AcqRes.retFalse := by
  intro fuel
  induction fuel with
  | zero =>
    intro step i s w
    simp [acquireGo]
  | succ n ih =>
    intro step i s w
    simp only [acquireGo]
    rcases htl : trylock c (sched step).id (sched step).t0 (sched step).t1 (sched step).tf s w
      with ⟨r, s1, w1⟩
    rcases r with e | r
    · simp
    · by_cases hr : r = some true
      · simp [hr]
      · simp only [hr, if_false, ite_false, Bool.false_eq_true]
        rcases hstale : is_stale c (sched step).sf (sched step).ts s1 w1 with ⟨stale, w2⟩
        rcases hh : (if stale then
            hijacklock c (sched step).id (sched step).th (sched step).hf (sched step).hadv s1 w2
          else (Except.ok false, s1, w2)) with ⟨r2, s2, w3⟩
        rcases r2 with e2 | b2
        · simp
        · rcases b2 with _ | _
          · exact ih (step + 1) i s2 ((sched step).padv w3)
          · simp

/-- C10: `acquire(max_attempts=0)` behaves exactly like `acquire()` with no
bound (Python truthiness: `if max_attempts:` is false for both `None` and
`0`): the two runs are literally equal for every fuel, the bounded-failure
indicator `False` is never returned, and a `False` return is possible only
for a nonzero `max_attempts`. -/
theorem C10_acquire_zero_like_none (c : Cfg) (f1 f2 : Bool) (sched : Nat → IterIn)
    (fuel : Nat) (s : LState) (w : World) :
    acquire c f1 f2 sched (some 0) fuel s w = acquire c f1 f2 sched none fuel s w ∧
    (acquire c f1 f2 sched (some 0) fuel s w).1 ≠ AcqRes.retFalse ∧
    (∀ ma : Option Int, (acquire c f1 f2 sched ma fuel s w).1 = AcqRes.retFalse →
      ∃ m, ma = some m ∧ m ≠ 0) := by
  have hnone : ∀ ma : Option Int, ma = none ∨ ma = some 0 →
      acquire c f1 f2 sched ma fuel s w = acquire c f1 f2 sched none fuel s w := by
    intro ma hma
    unfold acquire
    rcases hil : is_locked c f1 f2 s w with ⟨b, s1, w1⟩
    rcases b with _ | _
    · rcases hma with h0 | h0
      all_goals rw [h0]
      all_goals simp [acquireGo_zero_eq_none]
    · rfl
  have hnf : (acquire c f1 f2 sched none fuel s w).1 ≠ AcqRes.retFalse := by
    unfold acquire
    rcases hil : is_locked c f1 f2 s w with ⟨b, s1, w1⟩
    rcases b with _ | _
    · exact acquireGo_none_ne_retFalse c sched fuel 0 0 s1 w1
    · simp
  refine ⟨hnone (some 0) (Or.inr rfl), ?_, ?_⟩
  · rw [hnone (some 0) (Or.inr rfl)]
    exact hnf
  · intro ma hma
    rcases ma with _ | m
    · exact absurd hma hnf
    · by_cases hm : m = 0
      · subst hm
        rw [hnone (some 0) (Or.inr rfl)] at hma
        exact absurd hma hnf
      · exact ⟨m, rfl, hm⟩

/-- C10 witness: a concrete run in which `max_attempts = 0` and
`max_attempts = None` coincide. -/
theorem C10_witness :
    acquire cEx false false schedEx (some 0) 3 sEmpty wHeld
      = acquire cEx false false schedEx none 3 sEmpty wHeld :=
  (C10_acquire_zero_like_none cEx false false schedEx 3 sEmpty wHeld).1

/-! ### Claim C4 -/

/-- C4: `refresh()` raises the "Not locked" error exactly when `is_locked()`
is false (first conjunct); when `is_locked()` is true it raises nothing and
leaves the engine state unchanged (second conjunct), and — provided the
best-effort `utime` call does not itself fail — sets the lock file's
modification time to `now - skew` while keeping its content (third
conjunct). -/
theorem C4_refresh_spec (c : Cfg) (now : Int) (fS fR fU : Bool) (s : LState) (w : World) :
    ((refresh c now ⟨fS, fR, fU⟩ s w).1 = Except.error DotLockError.notLocked ↔
      (is_locked c fS fR s w).1 = false) ∧
    ((is_locked c fS fR s w).1 = true →
      (refresh c now ⟨fS, fR, fU⟩ s w).1 = Except.ok () ∧
      (refresh c now ⟨fS, fR, fU⟩ s w).2.1 = s) ∧
    (∀ i d, (is_locked c fS fR s w).1 = true → fU = false → s.lock = some (i, d) →
      alookup (refresh c now ⟨fS, fR, fU⟩ s w).2.2.fs.entries c.lockpath = some i ∧
      alookup (refresh c now ⟨fS, fR, fU⟩ s w).2.2.fs.inodes i
        = some ⟨now - s.skew, d⟩) := by
  rcases hil : is_locked c fS fR s w with ⟨b, s1, w1⟩
  rcases b with _ | _
  · have heq : refresh c now ⟨fS, fR, fU⟩ s w = (Except.error DotLockError.notLocked, s1, w1) := by
      simp [refresh, hil]
    simp [heq, hil]
  · have h1 : (is_locked c fS fR s w).1 = true := by rw [hil]
    rcases is_locked_true_inv c fS fR s w h1 with ⟨hfS, hfR, i0, d0, m0, hl0, he0, hd0⟩
    subst hfS
    subst hfR
    have hown := is_locked_owner c s w i0 m0 d0 hl0 he0 hd0
    rw [hown] at hil
    have hs1 : s1 = s := by
      have := congrArg (fun x => x.2.1) hil
      simpa using this.symm
    have hw1 : w1 = ⟨w.fs, FsOp.readOp c.lockpath :: FsOp.statOp c.lockpath :: w.log⟩ := by
      have := congrArg (fun x => x.2.2) hil
      simpa using this.symm
    have heq : refresh c now ⟨false, false, fU⟩ s w
        = (Except.ok (), s1, utime fU w1 c.lockpath (now - s1.skew)) := by
      simp [refresh, hown, hs1, hw1]
    refine ⟨?_, ?_, ?_⟩
    · simp [heq, hown]
    · intro _
      simp [heq, hs1]
    · intro i d _ hU hlk
      subst hU
      rw [hl0] at hlk
      injection hlk with h2
      injection h2 with hi0 hd0eq
      subst hi0
      subst hd0eq
      have hut : utime false w1 c.lockpath (now - s1.skew)
          = ⟨⟨w.fs.entries, aset w.fs.inodes i0 ⟨now - s.skew, d0⟩, w.fs.nextIno⟩,
             FsOp.utimeOp c.lockpath :: w1.log⟩ := by
        simp [utime, os_utime, hw1, he0, hd0, hs1]
      rw [heq, hut]
      simp [he0, alookup_aset_self]

/-- C4 witness: a concrete fault-free refresh on a held lock succeeds and
leaves the engine state unchanged. -/
theorem C4_witness :
    (refresh cEx 500 ⟨false, false, false⟩ sHeld wHeld).1 = Except.ok () ∧
    (refresh cEx 500 ⟨false, false, false⟩ sHeld wHeld).2.1 = sHeld :=
  (C4_refresh_spec cEx 500 false false false sHeld wHeld).2.1 (by decide)

/-! ### Claim C5 -/

theorem alookup_aremove_self {κ α : Type} [DecidableEq κ] (l : List (κ × α)) (k : κ) :
    alookup (aremove l k) k = none := by
  induction l with
  | nil => rfl
  | cons hd t ih =>
    rcases hd with ⟨k0, v0⟩
    by_cases h : k0 = k
    · simpa [aremove, h] using ih
    · simp [aremove, h, alookup, ih]

/-- C5: `release()` always leaves the cached lock cleared (first conjunct),
so an immediately repeated `release()` — with any faults — is a no-op
(second conjunct); on an engine that never acquired it is the identity, not
even touching the filesystem or the log (third conjunct); when the
re-verification `is_locked()` fails, the filesystem is left untouched — a
lock file that no longer matches the cached HeldLock is never removed
(fourth conjunct); and when ownership is verified (and the best-effort
unlink does not itself fail) the lock-file entry is removed (fifth
conjunct).  `release` raises nothing: by construction its result type is a
plain state pair, every adapter call it makes swallowing failures. -/
theorem C5_release_spec (c : Cfg) (fS fR fU : Bool) (s : LState) (w : World) :
    ((release c ⟨fS, fR, fU⟩ s w).1).lock = none ∧
    (∀ g : RelFaults,
      release c g (release c ⟨fS, fR, fU⟩ s w).1 (release c ⟨fS, fR, fU⟩ s w).2
        = ((release c ⟨fS, fR, fU⟩ s w).1, (release c ⟨fS, fR, fU⟩ s w).2)) ∧
    (s.lock = none → release c ⟨fS, fR, fU⟩ s w = (s, w)) ∧
    ((is_locked c fS fR s w).1 = false → (release c ⟨fS, fR, fU⟩ s w).2.fs = w.fs) ∧
    ((is_locked c fS fR s w).1 = true → fU = false →
      (release c ⟨fS, fR, fU⟩ s w).2.fs.entries = aremove w.fs.entries c.lockpath ∧
      alookup (release c ⟨fS, fR, fU⟩ s w).2.fs.entries c.lockpath = none) := by
  have hlock : ((release c ⟨fS, fR, fU⟩ s w).1).lock = none := by
    rcases hl : s.lock with _ | pr
    · rw [release_nolock c _ s w hl]
      exact hl
    · unfold release
      rw [hl]
      rcases hil : is_locked c fS fR s w with ⟨b, s1, w1⟩
      rcases b with _ | _
      · rcases is_locked_lock_cases c fS fR s w with hn | ⟨ht, _⟩
        · rw [hil] at hn
          exact hn
        · rw [hil] at ht
          simp at ht
      · simp
  refine ⟨hlock, ?_, ?_, ?_, ?_⟩
  · intro g
    exact release_nolock c g _ _ hlock
  · intro hl
    exact release_nolock c _ s w hl
  · intro hf
    rcases hl : s.lock with _ | pr
    · rw [release_nolock c _ s w hl]
    · unfold release
      rw [hl]
      rcases hil : is_locked c fS fR s w with ⟨b, s1, w1⟩
      have hw1 : w1.fs = w.fs := by
        have h0 := is_locked_fs c fS fR s w
        rw [hil] at h0
        exact h0
      rcases b with _ | _
      · exact hw1
      · rw [hil] at hf
        simp at hf
  · intro ht hU
    subst hU
    rcases is_locked_true_inv c fS fR s w ht with ⟨hfS, hfR, i0, d0, m0, hl0, he0, hd0⟩
    subst hfS
    subst hfR
    have hown := is_locked_owner c s w i0 m0 d0 hl0 he0 hd0
    have hrel : release c ⟨false, false, false⟩ s w
        = (⟨s.skew, none⟩,
           unlink false ⟨w.fs, FsOp.readOp c.lockpath :: FsOp.statOp c.lockpath :: w.log⟩
             c.lockpath) := by
      simp [release, hl0, hown, noRelFaults]
    have hul : unlink false
        (⟨w.fs, FsOp.readOp c.lockpath :: FsOp.statOp c.lockpath :: w.log⟩ : World)
        c.lockpath
        = ⟨⟨aremove w.fs.entries c.lockpath, w.fs.inodes, w.fs.nextIno⟩,
           FsOp.unlinkOp c.lockpath :: FsOp.readOp c.lockpath ::
             FsOp.statOp c.lockpath :: w.log⟩ := by
      simp [unlink, os_unlink, he0]
    rw [hrel, hul]
    simp [alookup_aremove_self]

/-- C5 witness: a concrete fault-free release of a held lock clears the
cached lock. -/
theorem C5_witness :
    ((release cEx ⟨false, false, false⟩ sHeld wHeld).1).lock = none :=
  (C5_release_spec cEx false false false sHeld wHeld).1

/-! ### Claims C6 and C7 -/

/-- Python truthiness of `_trylock`'s `None` / `True` / `False` result. -/
def truthy : Option Bool → Bool
  | some b => b
  | none => false

/-- The `stat(locktemp)` observation `_trylock` makes right after the link
attempt (write succeeding, arbitrary link/stat faults): replays the same
adapter calls `_trylock` performs. -/
def tryPostLinkStat (c : Cfg) (id : ProcId) (t0 : Int) (fL fS : Bool) (w : World) :
    Option Stat :=
  (stat fS
    (link fL (writefile false false t0 w (mkLocktemp c.lockpath id) (mkLockdata id t0)).2
      (mkLocktemp c.lockpath id) c.lockpath)
    (mkLocktemp c.lockpath id)).1

/-- C6: starting without a cached lock and with the lock record successfully
written, `_trylock` sets HeldLock exactly when the post-link stat of the temp
file succeeds with link count 2 (first conjunct); what it caches is the
observed inode identity plus the exact written record (second conjunct); and
its (normal) return value is precisely the truthiness of whether HeldLock
was set — Python `None` on a failed stat counting as falsy (third
conjunct). -/
theorem C6_trylock_spec (c : Cfg) (id : ProcId) (t0 t1 : Int) (fL fS fU : Bool)
    (s : LState) (w : World) (h : s.lock = none) :
    ((trylock c id t0 t1 ⟨false, false, fL, fS, fU⟩ s w).2.1.lock ≠ none ↔
      ∃ st, tryPostLinkStat c id t0 fL fS w = some st ∧ st.nlink = 2) ∧
    (∀ st, tryPostLinkStat c id t0 fL fS w = some st → st.nlink = 2 →
      (trylock c id t0 t1 ⟨false, false, fL, fS, fU⟩ s w).2.1.lock
        = some (st.ino, mkLockdata id t0)) ∧
    (∃ v, (trylock c id t0 t1 ⟨false, false, fL, fS, fU⟩ s w).1 = Except.ok v ∧
      truthy v = ((trylock c id t0 t1 ⟨false, false, fL, fS, fU⟩ s w).2.1.lock).isSome) := by
  have hd : mkLockdata id t0 ≠ "" := mkLockdata_ne_nil id t0
  have hwf : writefile false false t0 w (mkLocktemp c.lockpath id) (mkLockdata id t0)
      = (Except.ok (),
         ⟨(w.fs.openTrunc (mkLocktemp c.lockpath id) t0).setData (mkLocktemp c.lockpath id)
            (mkLockdata id t0),
          FsOp.writeOp (mkLocktemp c.lockpath id) :: w.log⟩) := by
    simp [writefile, if_neg hd]
  rcases hst : stat fS
      (link fL
        (⟨(w.fs.openTrunc (mkLocktemp c.lockpath id) t0).setData (mkLocktemp c.lockpath id)
            (mkLockdata id t0),
          FsOp.writeOp (mkLocktemp c.lockpath id) :: w.log⟩ : World)
        (mkLocktemp c.lockpath id) c.lockpath)
      (mkLocktemp c.lockpath id) with ⟨st?, w3⟩
  have hps : tryPostLinkStat c id t0 fL fS w = st? := by
    unfold tryPostLinkStat
    rw [hwf, hst]
  rcases st? with _ | st
  · refine ⟨?_, ?_, ?_⟩
    · simp only [trylock, hwf, hst, hps, h]
      simp
    · intro st hyp
      rw [hps] at hyp
      simp at hyp
    · simp only [trylock, hwf, hst, h]
      exact ⟨none, rfl, by simp [truthy, h]⟩
  · by_cases hn2 : st.nlink = 2
    · by_cases hsk : 1 < (t1 - st.mtime).natAbs
      all_goals
        refine ⟨?_, ?_, ?_⟩
        · simp only [trylock, hwf, hst, hps, h, hn2, hsk]
          simp [hn2]
        · intro st2 hyp _
          rw [hps] at hyp
          injection hyp with hyp2
          subst hyp2
          simp only [trylock, hwf, hst, h, hn2, hsk]
          simp
        · simp only [trylock, hwf, hst, h, hn2, hsk]
          exact ⟨some true, by simp [truthy], by simp [truthy]⟩
    · by_cases hsk : 1 < (t1 - st.mtime).natAbs
      all_goals
        refine ⟨?_, ?_, ?_⟩
        · simp only [trylock, hwf, hst, hps, h, hn2, hsk]
          simp [hn2, h]
        · intro st2 hyp h2
          rw [hps] at hyp
          injection hyp with hyp2
          subst hyp2
          exact absurd h2 hn2
        · simp only [trylock, hwf, hst, h, hn2, hsk]
          exact ⟨some false, by simp [truthy, h], by simp [truthy, h]⟩

/-- C6 witness: on the empty filesystem the link succeeds, the stat reports
link count 2, and the held lock is exactly the written record on inode 0. -/
theorem C6_witness :
    (trylock cEx idEx 100 100 ⟨false, false, false, false, false⟩ sEmpty wEmpty).2.1.lock
      = some (0, mkLockdata idEx 100) :=
  (C6_trylock_spec cEx idEx 100 100 false false false sEmpty wEmpty rfl).2.1
    ⟨0, 2, 100⟩ (by decide) rfl

/-- C7 counterexample: the claim "whenever trylock succeeds, the stored skew
afterwards equals the difference between the locally observed time and the
temp file's reported modification time" is FALSE: here `_trylock` succeeds,
the measured difference is `100 - 100 = 0`, but since `abs(0) <= 1` the
stale previous estimate `5` is retained. -/
theorem C7_counterexample :
    (trylock cEx idEx 100 100 noTryFaults ⟨5, none⟩ wEmpty).1 = Except.ok (some true) ∧
    (trylock cEx idEx 100 100 noTryFaults ⟨5, none⟩ wEmpty).2.1.skew = 5 ∧
    ((100 : Int) - 100) ≠ 5 :=
  ⟨rfl, rfl, by decide⟩

/-- C7 (amended): whenever the post-link stat succeeds (whether or not the
lock was acquired), the measured skew `t1 - st_mtime` replaces the stored
estimate only if its absolute value exceeds 1; otherwise the previous
estimate is retained. -/
theorem C7_skew_update_spec (c : Cfg) (id : ProcId) (t0 t1 : Int) (fL fS fU : Bool)
    (s : LState) (w : World) :
    ∀ st, tryPostLinkStat c id t0 fL fS w = some st →
      (trylock c id t0 t1 ⟨false, false, fL, fS, fU⟩ s w).2.1.skew
        = (if 1 < (t1 - st.mtime).natAbs then t1 - st.mtime else s.skew) := by
  have hd : mkLockdata id t0 ≠ "" := mkLockdata_ne_nil id t0
  have hwf : writefile false false t0 w (mkLocktemp c.lockpath id) (mkLockdata id t0)
      = (Except.ok (),
         ⟨(w.fs.openTrunc (mkLocktemp c.lockpath id) t0).setData (mkLocktemp c.lockpath id)
            (mkLockdata id t0),
          FsOp.writeOp (mkLocktemp c.lockpath id) :: w.log⟩) := by
    simp [writefile, if_neg hd]
  rcases hst : stat fS
      (link fL
        (⟨(w.fs.openTrunc (mkLocktemp c.lockpath id) t0).setData (mkLocktemp c.lockpath id)
            (mkLockdata id t0),
          FsOp.writeOp (mkLocktemp c.lockpath id) :: w.log⟩ : World)
        (mkLocktemp c.lockpath id) c.lockpath)
      (mkLocktemp c.lockpath id) with ⟨st?, w3⟩
  have hps : tryPostLinkStat c id t0 fL fS w = st? := by
    unfold tryPostLinkStat
    rw [hwf, hst]
  intro st hyp
  rw [hps] at hyp
  rcases st? with _ | st1
  · simp at hyp
  · have hes : st = st1 := (Option.some.inj hyp).symm
    rw [hes]
    by_cases hn2 : st1.nlink = 2 <;> by_cases hsk : 1 < (t1 - st1.mtime).natAbs <;>
      simp only [trylock, hwf, hst] <;> simp [hn2, hsk]

/-- C7 witness (for the amended claim): in the concrete acquisition of
`C7_counterexample` the post-link stat reports mtime 100, the measured skew
is 0, and the stored estimate stays 5. -/
theorem C7_witness :
    (trylock cEx idEx 100 100 ⟨false, false, false, false, false⟩ ⟨5, none⟩ wEmpty).2.1.skew
      = 5 := by
  have h := C7_skew_update_spec cEx idEx 100 100 false false false ⟨5, none⟩ wEmpty
    ⟨0, 2, 100⟩ (by decide)
  simpa using h

/-! ### Claim C8 -/

/-- The world `_hijacklock` observes when it wakes from
`time.sleep(hijack_delay)`: the lock file has been overwritten with the
fresh record, and other processes may have acted meanwhile (`adv`). -/
def hijackWake (c : Cfg) (id : ProcId) (t0 : Int) (adv : World → World) (w : World) :
    World :=
  adv (writefile false false t0 w c.lockpath (mkLockdata id t0)).2

/-- C8: `_hijacklock` (with the overwrite succeeding) re-reads the lock file
after the sleep; if the content read back is exactly the written record, it
returns `True` and caches the file's current inode identity together with
that content; if the content differs (including an unreadable file), it
returns `False` and the cached lock stays absent. -/
theorem C8_hijack_spec (c : Cfg) (id : ProcId) (t0 : Int) (adv : World → World)
    (s : LState) (w : World) (h : s.lock = none) :
    ((readfile false (hijackWake c id t0 adv w) c.lockpath).1 = some (mkLockdata id t0) →
      (hijacklock c id t0 noHijFaults adv s w).1 = Except.ok true ∧
      (∀ i, alookup (hijackWake c id t0 adv w).fs.entries c.lockpath = some i →
        (hijacklock c id t0 noHijFaults adv s w).2.1.lock = some (i, mkLockdata id t0))) ∧
    ((readfile false (hijackWake c id t0 adv w) c.lockpath).1 ≠ some (mkLockdata id t0) →
      (hijacklock c id t0 noHijFaults adv s w).1 = Except.ok false ∧
      (hijacklock c id t0 noHijFaults adv s w).2.1.lock = none) := by
  have hd : mkLockdata id t0 ≠ "" := mkLockdata_ne_nil id t0
  have hwf : writefile false false t0 w c.lockpath (mkLockdata id t0)
      = (Except.ok (),
         ⟨(w.fs.openTrunc c.lockpath t0).setData c.lockpath (mkLockdata id t0),
          FsOp.writeOp c.lockpath :: w.log⟩) := by
    simp [writefile, if_neg hd]
  have hwk : hijackWake c id t0 adv w
      = adv ⟨(w.fs.openTrunc c.lockpath t0).setData c.lockpath (mkLockdata id t0),
             FsOp.writeOp c.lockpath :: w.log⟩ := by
    unfold hijackWake
    rw [hwf]
  rcases hrd : readfile false
      (adv ⟨(w.fs.openTrunc c.lockpath t0).setData c.lockpath (mkLockdata id t0),
            FsOp.writeOp c.lockpath :: w.log⟩)
      c.lockpath with ⟨rd, w2⟩
  have hrd1 : (readfile false (hijackWake c id t0 adv w) c.lockpath).1 = rd := by
    rw [hwk, hrd]
  have hw2 : w2.fs = (hijackWake c id t0 adv w).fs := by
    have h0 := readfile_fs false
      (adv ⟨(w.fs.openTrunc c.lockpath t0).setData c.lockpath (mkLockdata id t0),
            FsOp.writeOp c.lockpath :: w.log⟩)
      c.lockpath
    rw [hrd] at h0
    rw [h0, hwk]
  by_cases hr : rd = some (mkLockdata id t0)
  · constructor
    · intro _
      subst hr
      rcases readfile_some_inv (by rw [hrd] :
          (readfile false
            (adv ⟨(w.fs.openTrunc c.lockpath t0).setData c.lockpath (mkLockdata id t0),
                  FsOp.writeOp c.lockpath :: w.log⟩)
            c.lockpath).1 = some (mkLockdata id t0))
        with ⟨i, ind, he, hi, hdata⟩
      have he2 : alookup w2.fs.entries c.lockpath = some i := by
        rw [hw2, hwk]
        exact he
      have hi2 : alookup w2.fs.inodes i = some ind := by
        rw [hw2, hwk]
        exact hi
      have hstat : stat false w2 c.lockpath
          = (some ⟨i, w2.fs.nlinkOf i, ind.mtime⟩, ⟨w2.fs, FsOp.statOp c.lockpath :: w2.log⟩) := by
        simp [stat, os_stat, FS.statP, he2, hi2]
      constructor
      · simp only [hijacklock, noHijFaults, hwf, hrd, hstat]
        simp
      · intro i2 hi2e
        have : i2 = i := by
          rw [hwk] at hi2e
          rw [he] at hi2e
          exact (Option.some.inj hi2e).symm
        subst this
        simp only [hijacklock, noHijFaults, hwf, hrd, hstat]
        simp
    · intro hcon
      rw [hrd1] at hcon
      exact absurd hr hcon
  · constructor
    · intro hcon
      rw [hrd1] at hcon
      exact absurd hcon hr
    · intro _
      have heval : hijacklock c id t0 noHijFaults adv s w = (Except.ok false, s, w2) := by
        simp only [hijacklock, noHijFaults, hwf, hrd]
        simp [hr]
      simp [heval, h]

/-- C8 witness: a concrete uncontested hijack (identity interleaving) of the
held world succeeds. -/
theorem C8_witness :
    (hijacklock cEx idEx2 300 noHijFaults (fun w => w) sEmpty wHeld).1 = Except.ok true :=
  ((C8_hijack_spec cEx idEx2 300 (fun w => w) sEmpty wHeld rfl).1 (by decide)).1

/-! ### Claim C1 -/

/-- C1 counterexample: the claim "acquire() returns success immediately and
performs no filesystem interaction (no stat, read, ...) when the engine
already holds a verified valid lock" is FALSE on both counts: the early
`return` yields Python `None` (`retNone`), not the success value `True`, and
the `is_locked()` re-verification does interact with the filesystem — the
operation log grows by one `stat` and one `read` of the lock file. -/
theorem C1_counterexample :
    (acquire cEx false false schedEx none 3 sHeld wHeld).1 = AcqRes.retNone ∧
    (acquire cEx false false schedEx none 3 sHeld wHeld).1 ≠ AcqRes.retTrue ∧
    (acquire cEx false false schedEx none 3 sHeld wHeld).2.2.log
      = [FsOp.readOp "f.lock", FsOp.statOp "f.lock"] ∧
    (acquire cEx false false schedEx none 3 sHeld wHeld).2.2.log ≠ wHeld.log :=
  ⟨rfl, by decide, rfl, by decide⟩

/-- C1 (amended): for an engine whose cached lock accurately matches the live
lock file, a fault-free `acquire()` returns immediately with Python `None`
(not `True`), leaves the engine state and the filesystem unchanged, and the
only filesystem interaction during the call is the single `stat` and single
`read` performed by the `is_locked()` re-verification — no write, link,
remove or utime occurs, and the polling loop is never entered. -/
theorem C1_amended_fastpath (c : Cfg) (sched : Nat → IterIn) (ma : Option Int)
    (fuel : Nat) (s : LState) (w : World) (i : Nat) (m : Int) (d : String)
    (hl : s.lock = some (i, d)) (he : alookup w.fs.entries c.lockpath = some i)
    (hd : alookup w.fs.inodes i = some ⟨m, d⟩) :
    acquire c false false sched ma fuel s w
      = (AcqRes.retNone, s,
         ⟨w.fs, FsOp.readOp c.lockpath :: FsOp.statOp c.lockpath :: w.log⟩) := by
  have hown := is_locked_owner c s w i m d hl he hd
  simp [acquire, hown]

/-- C1 witness (for the amended claim): the concrete held engine re-enters
`acquire` and gets `None` back after exactly one stat and one read. -/
theorem C1_witness :
    acquire cEx false false schedEx none 3 sHeld wHeld
      = (AcqRes.retNone, sHeld,
         ⟨wHeld.fs, FsOp.readOp cEx.lockpath :: FsOp.statOp cEx.lockpath :: wHeld.log⟩) :=
  C1_amended_fastpath cEx schedEx none 3 sHeld wHeld 0 100 "h 1 0 100" rfl rfl rfl

/-! ### Claim C9

Two independent engines on the same resource path, coordinated only through
the shared filesystem.  "No staleness window elapsed" means neither engine
ever reaches the hijack path, so the reachable behaviours are interleavings
of fault-free `_trylock` and `release` calls; each engine call is one atomic
step, which is justified by the link primitive's atomicity (the one step
whose outcome decides ownership). -/

/-- A two-engine system: the shared world plus each engine's state. -/
structure Sys where
  w : World
  a : LState
  b : LState

def tryStepA (c : Cfg) (id : ProcId) (t0 t1 : Int) (s : Sys) : Sys :=
  ⟨(trylock c id t0 t1 noTryFaults s.a s.w).2.2,
   (trylock c id t0 t1 noTryFaults s.a s.w).2.1, s.b⟩

def tryStepB (c : Cfg) (id : ProcId) (t0 t1 : Int) (s : Sys) : Sys :=
  ⟨(trylock c id t0 t1 noTryFaults s.b s.w).2.2, s.a,
   (trylock c id t0 t1 noTryFaults s.b s.w).2.1⟩

def relStepA (c : Cfg) (s : Sys) : Sys :=
  ⟨(release c noRelFaults s.a s.w).2, (release c noRelFaults s.a s.w).1, s.b⟩

def relStepB (c : Cfg) (s : Sys) : Sys :=
  ⟨(release c noRelFaults s.b s.w).2, s.a, (release c noRelFaults s.b s.w).1⟩

/-- One interleaving step: either engine performs a `_trylock` (with
arbitrary identifiers and observed times) or a `release`. -/
inductive Step (c : Cfg) : Sys → Sys → Prop where
  | tryA : ∀ (id : ProcId) (t0 t1 : Int) (s : Sys), Step c s (tryStepA c id t0 t1 s)
  | tryB : ∀ (id : ProcId) (t0 t1 : Int) (s : Sys), Step c s (tryStepB c id t0 t1 s)
  | relA : ∀ s : Sys, Step c s (relStepA c s)
  | relB : ∀ s : Sys, Step c s (relStepB c s)

/-- Both engines fresh (skew 0, no cached lock) on an empty filesystem. -/
def initSys : Sys := ⟨⟨⟨[], [], 0⟩, []⟩, ⟨0, none⟩, ⟨0, none⟩⟩

def Reach (c : Cfg) (s : Sys) : Prop := Relation.ReflTransGen (Step c) initSys s

/-- Well-formedness: every directory entry's inode number is below the
fresh-inode counter (inode numbers are never reused). -/
def WF (fs : FS) : Prop := ∀ e ∈ fs.entries, e.2 < fs.nextIno

/-- Engine `l` accurately owns the lock: the lock file is the only directory
entry and its inode content is exactly the cached record. -/
def ownerInv (c : Cfg) (w : World) (l : LState) : Prop :=
  ∃ i m d, w.fs.entries = [(c.lockpath, i)] ∧ alookup w.fs.inodes i = some ⟨m, d⟩ ∧
    l.lock = some (i, d)

/-- The mutual-exclusion invariant for the pair `(x, y)` of engine states:
either no lock file and neither holds, or exactly one of them accurately
owns the lock file. -/
def Inv2 (c : Cfg) (w : World) (x y : LState) : Prop :=
  WF w.fs ∧
  ((w.fs.entries = [] ∧ x.lock = none ∧ y.lock = none) ∨
   (ownerInv c w x ∧ y.lock = none) ∨
   (ownerInv c w y ∧ x.lock = none))

theorem Inv2_swap (c : Cfg) (w : World) (x y : LState) (h : Inv2 c w x y) :
    Inv2 c w y x := by
  rcases h with ⟨hwf, he | ho | ho⟩
  · exact ⟨hwf, Or.inl ⟨he.1, he.2.2, he.2.1⟩⟩
  · exact ⟨hwf, Or.inr (Or.inr ho)⟩
  · exact ⟨hwf, Or.inr (Or.inl ho)⟩

theorem Inv2_try (c : Cfg) (id : ProcId) (t0 t1 : Int) (x y : LState) (w : World)
    (h : Inv2 c w x y) :
    Inv2 c (trylock c id t0 t1 noTryFaults x w).2.2
      (trylock c id t0 t1 noTryFaults x w).2.1 y := by
  rcases h with ⟨hwf, he | ⟨⟨i, m, d, hw, hd, hl⟩, hy⟩ | ⟨⟨i, m, d, hw, hd, hl⟩, hx⟩⟩
  · rcases trylock_absent c id t0 t1 x w he.1 with ⟨_, hlock, hent, hino, hnext⟩
    refine ⟨?_, Or.inr (Or.inl ⟨⟨w.fs.nextIno, t0, mkLockdata id t0, hent, hino, hlock⟩,
      he.2.2⟩)⟩
    intro e hmem
    rw [hent] at hmem
    rcases List.mem_singleton.mp hmem with rfl
    rw [hnext]
    exact Nat.lt_succ_self _
  · have hi : i < w.fs.nextIno := by
      refine hwf (c.lockpath, i) ?_
      rw [hw]
      exact List.mem_singleton_self _
    rcases trylock_present c id t0 t1 x w i hw hi with ⟨_, hlock, hent, hino, hnext⟩
    refine ⟨?_, Or.inr (Or.inl ⟨⟨i, m, d, hent, ?_, ?_⟩, hy⟩)⟩
    · intro e hmem
      rw [hent] at hmem
      rcases List.mem_singleton.mp hmem with rfl
      rw [hnext]
      exact Nat.lt_succ_of_lt hi
    · rw [hino]
      exact hd
    · rw [hlock]
      exact hl
  · have hi : i < w.fs.nextIno := by
      refine hwf (c.lockpath, i) ?_
      rw [hw]
      exact List.mem_singleton_self _
    rcases trylock_present c id t0 t1 x w i hw hi with ⟨_, hlock, hent, hino, hnext⟩
    refine ⟨?_, Or.inr (Or.inr ⟨⟨i, m, d, hent, ?_, hl⟩, ?_⟩)⟩
    · intro e hmem
      rw [hent] at hmem
      rcases List.mem_singleton.mp hmem with rfl
      rw [hnext]
      exact Nat.lt_succ_of_lt hi
    · rw [hino]
      exact hd
    · rw [hlock]
      exact hx

theorem Inv2_rel (c : Cfg) (x y : LState) (w : World) (h : Inv2 c w x y) :
    Inv2 c (release c noRelFaults x w).2 (release c noRelFaults x w).1 y := by
  rcases h with ⟨hwf, he | ⟨⟨i, m, d, hw, hd, hl⟩, hy⟩ | ⟨ho, hx⟩⟩
  · rw [release_nolock c noRelFaults x w he.2.1]
    exact ⟨hwf, Or.inl he⟩
  · rcases release_owner c x w i m d hl hw hd with ⟨hst, hent, hino, hnext⟩
    refine ⟨?_, Or.inl ⟨hent, ?_, hy⟩⟩
    · intro e hmem
      rw [hent] at hmem
      simp at hmem
    · rw [hst]
  · rw [release_nolock c noRelFaults x w hx]
    exact ⟨hwf, Or.inr (Or.inr ⟨ho, hx⟩)⟩

theorem Inv_step (c : Cfg) (s1 s2 : Sys) (hstep : Step c s1 s2)
    (h1 : Inv2 c s1.w s1.a s1.b) : Inv2 c s2.w s2.a s2.b := by
  cases hstep with
  | tryA id t0 t1 => exact Inv2_try c id t0 t1 s1.a s1.b s1.w h1
  | tryB id t0 t1 =>
    exact Inv2_swap c _ _ _ (Inv2_try c id t0 t1 s1.b s1.a s1.w (Inv2_swap c _ _ _ h1))
  | relA => exact Inv2_rel c s1.a s1.b s1.w h1
  | relB =>
    exact Inv2_swap c _ _ _ (Inv2_rel c s1.b s1.a s1.w (Inv2_swap c _ _ _ h1))

theorem inv_reach (c : Cfg) (s : Sys) (h : Reach c s) : Inv2 c s.w s.a s.b := by
  induction h with
  | refl =>
    refine ⟨?_, Or.inl ⟨rfl, rfl, rfl⟩⟩
    intro e hmem
    simp [initSys] at hmem
  | tail hs hstep ih =>
    exact Inv_step c _ _ hstep ih

/-- C9: in every reachable state of the two-engine system, at most one engine
holds HeldLock (first conjunct), and while one engine holds it the other
engine's fault-free `_trylock` returns `False` and leaves its HeldLock unset
(second and third conjuncts). -/
theorem C9_mutual_exclusion (c : Cfg) (s : Sys) (h : Reach c s) :
    (s.a.lock = none ∨ s.b.lock = none) ∧
    (∀ pr, s.a.lock = some pr → ∀ (id : ProcId) (t0 t1 : Int),
      (trylock c id t0 t1 noTryFaults s.b s.w).1 = Except.ok (some false) ∧
      (trylock c id t0 t1 noTryFaults s.b s.w).2.1.lock = none) ∧
    (∀ pr, s.b.lock = some pr → ∀ (id : ProcId) (t0 t1 : Int),
      (trylock c id t0 t1 noTryFaults s.a s.w).1 = Except.ok (some false) ∧
      (trylock c id t0 t1 noTryFaults s.a s.w).2.1.lock = none) := by
  rcases inv_reach c s h with ⟨hwf, hcase⟩
  have hfail : ∀ (l : LState) (i : Nat), l.lock = none →
      s.w.fs.entries = [(c.lockpath, i)] → ∀ (id : ProcId) (t0 t1 : Int),
      (trylock c id t0 t1 noTryFaults l s.w).1 = Except.ok (some false) ∧
      (trylock c id t0 t1 noTryFaults l s.w).2.1.lock = none := by
    intro l i hnone hw id t0 t1
    have hi : i < s.w.fs.nextIno := by
      refine hwf (c.lockpath, i) ?_
      rw [hw]
      exact List.mem_singleton_self _
    rcases trylock_present c id t0 t1 l s.w i hw hi with ⟨hret, hlock, _, _, _⟩
    constructor
    · rw [hret, hnone]
      rfl
    · rw [hlock]
      exact hnone
  rcases hcase with ⟨hent, ha, hb⟩ | ⟨⟨i, m, d, hw, hd, hl⟩, hy⟩ | ⟨⟨i, m, d, hw, hd, hl⟩, hx⟩
  · refine ⟨Or.inl ha, ?_, ?_⟩
    · intro pr hpr
      rw [ha] at hpr
      exact absurd hpr (by simp)
    · intro pr hpr
      rw [hb] at hpr
      exact absurd hpr (by simp)
  · refine ⟨Or.inr hy, ?_, ?_⟩
    · intro pr _ id t0 t1
      exact hfail s.b i hy hw id t0 t1
    · intro pr hpr
      rw [hy] at hpr
      exact absurd hpr (by simp)
  · refine ⟨Or.inl hx, ?_, ?_⟩
    · intro pr hpr
      rw [hx] at hpr
      exact absurd hpr (by simp)
    · intro pr _ id t0 t1
      exact hfail s.a i hx hw id t0 t1

/-- C9 witness: after engine A acquires from the initial state, engine B's
concrete `_trylock` fails. -/
theorem C9_witness :
    (trylock cEx idEx2 5 6 noTryFaults (tryStepA cEx idEx 0 0 initSys).b
      (tryStepA cEx idEx 0 0 initSys).w).1 = Except.ok (some false) :=
  ((C9_mutual_exclusion cEx (tryStepA cEx idEx 0 0 initSys)
      (Relation.ReflTransGen.single (Step.tryA idEx 0 0 initSys))).2.1
    (0, mkLockdata idEx 0) (by decide) idEx2 5 6).1

end DotLock
